import Mathlib

/-!
Shallow embedding of the lightmap baking pipeline of
Source/Urho3D/Glow/LightmapBaker.cpp (rbfx). Float values are modelled as
rationals; fallible code (failed assertions, out-of-bounds accesses, render
failures) returns Option. External collaborators that are not part of the
sampled sources (the GPU render of the G-buffer, the Embree occlusion query,
float vector normalization) enter as explicit parameters.
-/

namespace Urho3D

/-- Urho3D Vector2 with float components modelled as rationals. -/
structure Vector2 where
  x : ℚ
  y : ℚ
deriving DecidableEq, Repr

/-- Urho3D Vector3 with float components modelled as rationals. -/
structure Vector3 where
  x : ℚ
  y : ℚ
  z : ℚ
deriving DecidableEq, Repr

/-- Urho3D Vector4 with float components modelled as rationals. -/
structure Vector4 where
  x : ℚ
  y : ℚ
  z : ℚ
  w : ℚ
deriving DecidableEq, Repr

/-- Vector3::DotProduct. -/
def Vector3.dotProduct (a b : Vector3) : ℚ :=
  a.x * b.x + a.y * b.y + a.z * b.z

/-- Componentwise sum of two Vector3. -/
def Vector3.add (a b : Vector3) : Vector3 :=
  ⟨a.x + b.x, a.y + b.y, a.z + b.z⟩

/-- Scalar multiple of a Vector3. -/
def Vector3.smul (a : Vector3) (s : ℚ) : Vector3 :=
  ⟨a.x * s, a.y * s, a.z * s⟩

/-- static_cast of a Vector4 down to Vector3 (drops the w component). -/
def Vector4.xyz (v : Vector4) : Vector3 :=
  ⟨v.x, v.y, v.z⟩

/-- Urho3D Color (RGBA floats modelled as rationals). -/
structure Color where
  r : ℚ
  g : ℚ
  b : ℚ
  a : ℚ
deriving DecidableEq, Repr

/-- Color::WHITE. -/
def Color.WHITE : Color := ⟨1, 1, 1, 1⟩

/-- Color::operator*(float): multiplies all four components. -/
def Color.mulScalar (c : Color) (s : ℚ) : Color :=
  ⟨c.r * s, c.g * s, c.b * s, c.a * s⟩

/-- Urho3D IntVector2. -/
structure IntVector2 where
  x : Int
  y : Int
deriving DecidableEq, Repr

/-- Urho3D IntRect: left, top, right, bottom. -/
structure IntRect where
  left : Int
  top : Int
  right : Int
  bottom : Int
deriving DecidableEq, Repr

/-- Urho3D Rect (float rectangle, min and max corner). -/
structure Rect where
  min : Vector2
  max : Vector2
deriving DecidableEq, Repr

/-- static_cast<unsigned> applied to a float (here a rational): truncation
toward zero; negative inputs are undefined behaviour in C++ and are clamped
to zero here. -/
def floatToUnsigned (q : ℚ) : Nat :=
  (q.num / (q.den : Int)).toNat

/-- Size of Embree ray packet (LightmapBaker.cpp line 52). -/
def RayPacketSize : Nat := 16

/-- M_MAX_UNSIGNED: initial sentinel of LightmapBakerImpl::currentLightmapIndex_. -/
def M_MAX_UNSIGNED : Nat := 4294967295

/-! ## Rect packer

Modelled from the spec: the rect packer behind the lightmap atlases is
Urho3D's AreaAllocator (Math/AreaAllocator.h), which is not among the sampled
sources. The spec's contract for it: Allocate(width, height) places a
rectangle without overlapping previously allocated rectangles within a
fixed-size canvas, returning its position or failing when no free position of
the requested size exists; Reset(width, height) clears all allocations and
resizes the canvas. The model keeps a list of free rectangles, serves a
request from the first free rectangle that fits (placing the allocation at
that rectangle's min corner) and splits the remainder into up to two free
rectangles. Requests with a non-positive dimension fail. -/
structure AreaAllocator where
  width : Int
  height : Int
  freeAreas : List IntRect
deriving DecidableEq, Repr

/-- Modelled from the spec: AreaAllocator::Reset — a fresh canvas whose whole
area is a single free rectangle. -/
def AreaAllocator.Reset (w h : Int) : AreaAllocator :=
  ⟨w, h, [⟨0, 0, w, h⟩]⟩

/-- Modelled from the spec: after placing a w×h allocation at the min corner
of free rectangle r, the remainder of r is returned as up to two free
rectangles (right strip and bottom strip). -/
def splitFreeArea (r : IntRect) (w h : Int) : List IntRect :=
  [IntRect.mk (r.left + w) r.top r.right r.bottom,
   IntRect.mk r.left (r.top + h) (r.left + w) r.bottom].filter
    (fun s => decide (s.left < s.right) && decide (s.top < s.bottom))

/-- Modelled from the spec: scan the free list for the first rectangle that
fits a w×h request; allocate at its min corner and split its remainder. -/
def allocateFrom (w h : Int) : List IntRect → Option (IntVector2 × List IntRect)
  | [] => none
  | r :: rest =>
    if w ≤ r.right - r.left ∧ h ≤ r.bottom - r.top then
      some (⟨r.left, r.top⟩, splitFreeArea r w h ++ rest)
    else
      (allocateFrom w h rest).map fun pr => (pr.1, r :: pr.2)

/-- Modelled from the spec: AreaAllocator::Allocate. -/
def AreaAllocator.Allocate (a : AreaAllocator) (w h : Int) : Option (IntVector2 × AreaAllocator) :=
  if w ≤ 0 ∨ h ≤ 0 then none
  else
    (allocateFrom w h a.freeAreas).map fun pr =>
      (pr.1, { a with freeAreas := pr.2 })

/-- A rectangle lies inside the w×h canvas anchored at the origin. -/
def IntRect.withinCanvas (r : IntRect) (w h : Int) : Prop :=
  0 ≤ r.left ∧ 0 ≤ r.top ∧ r.right ≤ w ∧ r.bottom ≤ h

/-- Well-formed allocator: every free rectangle lies inside the canvas. -/
def AreaAllocator.WF (a : AreaAllocator) : Prop :=
  ∀ r ∈ a.freeAreas, r.withinCanvas a.width a.height

/-! ## Data model (LightmapBaker.cpp lines 54-180) -/

/-- LightmapBakingSettings (declared in Glow/LightmapBaker.h; fields taken
from their uses in LightmapBaker.cpp). String-valued fields (render path and
material names) are resource identifiers with no bearing on the verified
logic and are omitted. -/
structure LightmapBakingSettings where
  lightmapSize : Nat
  texelDensity : Nat
  minLightmapScale : ℚ
  lightmapPadding : Nat
  numParallelChunks : Nat
deriving DecidableEq, Repr

/-- Description of lightmap region (LightmapBaker.cpp lines 55-81). -/
structure LightmapRegion where
  lightmapIndex : Nat
  lightmapTexelRect : IntRect
  lightmapUVRect : Rect
deriving DecidableEq, Repr

/-- The actual-region constructor LightmapRegion(index, position, size,
maxSize) from lines 60-66: texel rect from position and size, UV rect equal
to the texel rect divided by maxSize. -/
def LightmapRegion.make (index : Nat) (position size : IntVector2) (maxSize : Nat) :
    LightmapRegion :=
  let rect : IntRect := ⟨position.x, position.y, position.x + size.x, position.y + size.y⟩
  { lightmapIndex := index
    lightmapTexelRect := rect
    lightmapUVRect :=
      { min := ⟨(rect.left : ℚ) / (maxSize : ℚ), (rect.top : ℚ) / (maxSize : ℚ)⟩
        max := ⟨(rect.right : ℚ) / (maxSize : ℚ), (rect.bottom : ℚ) / (maxSize : ℚ)⟩ } }

/-- The default constructor LightmapRegion() = default leaves lightmapIndex_
uninitialized (it has no member initializer); the indeterminate value is made
explicit as a parameter. The rectangle members have zeroing default
constructors. -/
def LightmapRegion.defaultUninit (indeterminate : Nat) : LightmapRegion :=
  { lightmapIndex := indeterminate
    lightmapTexelRect := ⟨0, 0, 0, 0⟩
    lightmapUVRect := ⟨⟨0, 0⟩, ⟨0, 0⟩⟩ }

/-- LightmapRegion::GetScaleOffset (lines 68-73): (uv size, uv offset). -/
def LightmapRegion.GetScaleOffset (region : LightmapRegion) : Vector4 :=
  let offset := region.lightmapUVRect.min
  ⟨region.lightmapUVRect.max.x - region.lightmapUVRect.min.x,
   region.lightmapUVRect.max.y - region.lightmapUVRect.min.y,
   offset.x, offset.y⟩

/-- Metadata of a Model asset read by CalculateModelLightmapSize: the
lightmap-size and lightmap-density values stored by the UV generator. -/
structure ModelData where
  lightmapSize : IntVector2
  lightmapDensity : Nat
deriving DecidableEq, Repr

/-- A scene node as the pipeline sees it: world scale and the optional
StaticModel component (with its model's metadata). -/
structure NodeData where
  worldScale : Vector3
  staticModel : Option ModelData
deriving DecidableEq, Repr

/-- Description of lightmap receiver (lines 83-92). The node pointer is kept
as NodeData; staticModel_ is null until region allocation fills it. -/
structure LightReceiver where
  node : NodeData
  staticModel : Option ModelData
  region : LightmapRegion
deriving DecidableEq, Repr

/-- Lightmap description (lines 94-107): only the area allocator matters for
the verified logic; the baking scene, camera and render-target placeholders
are graphics-side objects with no observable state here. -/
structure LightmapDesc where
  allocator : AreaAllocator
deriving DecidableEq, Repr

/-- Well-formed lightmap description with respect to the configured atlas
size L: the allocator is well-formed, and the atlas is either a regular
full-size L×L one or a dedicated one with no free area left (a dedicated
atlas is fully allocated by its single region at creation). -/
def LightmapDescWF (L : Int) (d : LightmapDesc) : Prop :=
  d.allocator.WF ∧
    ((d.allocator.width = L ∧ d.allocator.height = L) ∨ d.allocator.freeAreas = [])

/-- Well-formed atlas list: every atlas is well-formed. This invariant holds
for the empty initial list and is preserved by AllocateLightmapRegion. -/
def LightmapsWF (L : Int) (lightmaps : List LightmapDesc) : Prop :=
  ∀ d ∈ lightmaps, LightmapDescWF L d

/-! ## Region allocation (lines 182-269) -/

/-- CalculateModelLightmapSize (lines 182-197). DOT_SCALE is (1/3, 1/3, 1/3).
A zero model density makes the C++ float division produce infinity; the
rational model yields zero — the pipeline never stores a zero density. -/
def CalculateModelLightmapSize (settings : LightmapBakingSettings) (model : ModelData)
    (scale : Vector3) : IntVector2 :=
  let modelLightmapSizeX : ℚ := (model.lightmapSize.x : ℚ)
  let modelLightmapSizeY : ℚ := (model.lightmapSize.y : ℚ)
  let nodeScale : ℚ := scale.dotProduct ⟨1/3, 1/3, 1/3⟩
  let rescaleFactor : ℚ := nodeScale * (settings.texelDensity : ℚ) / (model.lightmapDensity : ℚ)
  let clampedRescaleFactor : ℚ := max settings.minLightmapScale rescaleFactor
  ⟨⌈modelLightmapSizeX * clampedRescaleFactor⌉, ⌈modelLightmapSizeY * clampedRescaleFactor⌉⟩

/-- The try-existing-maps loop of AllocateLightmapRegion (lines 206-217):
first atlas whose allocator accepts the padded request wins; returns its
index, the padded position, and the updated atlas list. -/
def tryExistingLightmaps (w h : Int) : List LightmapDesc →
    Option (Nat × IntVector2 × List LightmapDesc)
  | [] => none
  | d :: rest =>
    match d.allocator.Allocate w h with
    | some (pos, alloc) => some (0, pos, { d with allocator := alloc } :: rest)
    | none =>
      (tryExistingLightmaps w h rest).map fun pr => (pr.1 + 1, pr.2.1, d :: pr.2.2)

/-- AllocateLightmapRegion (lines 199-250). The C++ locals padding,
paddedSize (size + 2*padding per dimension), lightmapSize and sizeX (the
requested width rounded up to the next multiple of RayPacketSize) are written
inline. Returns the region and the grown atlas list, or none where the
source would fail its assert(success) / assert(position == IntVector2::ZERO)
and continue on indeterminate data. -/
def AllocateLightmapRegion (settings : LightmapBakingSettings)
    (lightmaps : List LightmapDesc) (size : IntVector2) :
    Option (LightmapRegion × List LightmapDesc) :=
  match tryExistingLightmaps (size.x + 2 * (settings.lightmapPadding : Int))
      (size.y + 2 * (settings.lightmapPadding : Int)) lightmaps with
  | some (lightmapIndex, paddedPosition, updated) =>
    some (LightmapRegion.make lightmapIndex
      ⟨paddedPosition.x + (settings.lightmapPadding : Int),
       paddedPosition.y + (settings.lightmapPadding : Int)⟩ size settings.lightmapSize,
      updated)
  | none =>
    if size.x > (settings.lightmapSize : Int) ∨ size.y > (settings.lightmapSize : Int) then
      -- dedicated map for this specific region (lines 224-237)
      match (AreaAllocator.Reset
          ((size.x + (RayPacketSize : Int) - 1) / (RayPacketSize : Int) * (RayPacketSize : Int))
          size.y).Allocate
          ((size.x + (RayPacketSize : Int) - 1) / (RayPacketSize : Int) * (RayPacketSize : Int))
          size.y with
      | some (position, alloc) =>
        if position = ⟨0, 0⟩ then
          some (LightmapRegion.make lightmaps.length ⟨0, 0⟩ size settings.lightmapSize,
            lightmaps ++ [⟨alloc⟩])
        else none
      | none => none
    else
      -- chunk from new full-size map (lines 239-249)
      match (AreaAllocator.Reset (settings.lightmapSize : Int)
          (settings.lightmapSize : Int)).Allocate
          (size.x + 2 * (settings.lightmapPadding : Int))
          (size.y + 2 * (settings.lightmapPadding : Int)) with
      | some (paddedPosition, alloc) =>
        if paddedPosition = ⟨0, 0⟩ then
          some (LightmapRegion.make lightmaps.length
            ⟨paddedPosition.x + (settings.lightmapPadding : Int),
             paddedPosition.y + (settings.lightmapPadding : Int)⟩ size settings.lightmapSize,
            lightmaps ++ [⟨alloc⟩])
        else none
      | none => none

/-- AllocateLightmapRegions (lines 252-269): receivers without a StaticModel
component are skipped; the rest get a computed size and a region. -/
def AllocateLightmapRegions (settings : LightmapBakingSettings) :
    List LightReceiver → List LightmapDesc →
    Option (List LightReceiver × List LightmapDesc)
  | [], lightmaps => some ([], lightmaps)
  | receiver :: rest, lightmaps =>
    match receiver.node.staticModel with
    | none =>
      (AllocateLightmapRegions settings rest lightmaps).map fun pr =>
        (receiver :: pr.1, pr.2)
    | some model =>
      let nodeLightmapSize := CalculateModelLightmapSize settings model receiver.node.worldScale
      match AllocateLightmapRegion settings lightmaps nodeLightmapSize with
      | none => none
      | some (region, lightmaps2) =>
        (AllocateLightmapRegions settings rest lightmaps2).map fun pr =>
          ({ receiver with staticModel := some model, region := region } :: pr.1, pr.2)

/-! ## Baker state (lines 109-180) and the public API (lines 454-719) -/

/-- The four RGBA32-float textures read back from the baking view after a
successful render (lines 586-589). Their contents are produced by the GPU and
enter the model as data. -/
structure GBufferTextures where
  position : List Vector4
  smoothPosition : List Vector4
  faceNormal : List Vector4
  smoothNormal : List Vector4
deriving DecidableEq, Repr

/-- LightmapBakerImpl (lines 109-180): the parts with observable state.
Graphics handles (render path, Embree device/scene, placeholders) are
omitted; the Embree scene appears as the occlusion oracle passed to
BakeLightmap. -/
structure LightmapBakerImpl where
  settings : LightmapBakingSettings
  lightReceivers : List LightReceiver
  lightmaps : List LightmapDesc
  currentLightmapIndex : Nat
  positionBuffer : List Vector4
  smoothPositionBuffer : List Vector4
  faceNormalBuffer : List Vector4
  smoothNormalBuffer : List Vector4
deriving DecidableEq, Repr

/-- The LightmapBakerImpl constructor (lines 112-122): stores the settings,
wraps every node into a LightReceiver whose staticModel_ is null and whose
region is default-constructed (indeterminate lightmap index), and leaves
currentLightmapIndex_ at the M_MAX_UNSIGNED sentinel (line 171). -/
def LightmapBakerImpl.make (settings : LightmapBakingSettings) (nodes : List NodeData)
    (indeterminate : Nat) : LightmapBakerImpl :=
  { settings := settings
    lightReceivers := nodes.map fun n =>
      { node := n, staticModel := none, region := LightmapRegion.defaultUninit indeterminate }
    lightmaps := []
    currentLightmapIndex := M_MAX_UNSIGNED
    positionBuffer := []
    smoothPositionBuffer := []
    faceNormalBuffer := []
    smoothNormalBuffer := [] }

/-- LightmapBakerImpl::Validate (lines 132-139). -/
def LightmapBakerImpl.Validate (impl : LightmapBakerImpl) : Bool :=
  if impl.settings.lightmapSize % impl.settings.numParallelChunks ≠ 0 then false
  else if impl.settings.lightmapSize % RayPacketSize ≠ 0 then false
  else true

/-- InitializeLightmapBakingScenes (lines 312-352), receiver loop only (the
per-atlas scene/camera construction has no observable state here). For every
receiver — before checking staticModel_ — the source indexes the lightmap
array with the receiver's region index (line 334); an out-of-range index is
undefined behaviour, modelled as none. On success the model returns the
LMOffset shader parameters bound for receivers that do have a model. -/
def InitializeLightmapBakingScenes (lightmaps : List LightmapDesc) :
    List LightReceiver → Option (List Vector4)
  | [] => some []
  | receiver :: rest =>
    match lightmaps[receiver.region.lightmapIndex]? with
    | none => none
    | some _ =>
      (InitializeLightmapBakingScenes lightmaps rest).map fun offsets =>
        match receiver.staticModel with
        | some _ => receiver.region.GetScaleOffset :: offsets
        | none => offsets

/-- LightmapBaker::Initialize (lines 463-503): build the impl, validate the
settings (returning false with nothing allocated on violation), then allocate
the lightmap regions. Render-path/material loading and render-surface
creation are graphics glue with no modelled state. The result is none where
region allocation would trip an assertion. -/
def Initialize (settings : LightmapBakingSettings) (nodes : List NodeData)
    (indeterminate : Nat) : Option (Bool × LightmapBakerImpl) :=
  if !(LightmapBakerImpl.make settings nodes indeterminate).Validate then
    some (false, LightmapBakerImpl.make settings nodes indeterminate)
  else
    match AllocateLightmapRegions settings
        (LightmapBakerImpl.make settings nodes indeterminate).lightReceivers [] with
    | none => none
    | some (receivers, lightmaps) =>
      -- line 479: the baking scenes are prepared here; the receiver loop of
      -- InitializeLightmapBakingScenes can hit undefined behaviour (none)
      match InitializeLightmapBakingScenes lightmaps receivers with
      | none => none
      | some _ =>
        some (true, { LightmapBakerImpl.make settings nodes indeterminate with
          lightReceivers := receivers, lightmaps := lightmaps })

/-- LightmapBaker::RenderLightmapGBuffer (lines 556-592): rejects an
out-of-range index; a failed Graphics::BeginFrame (here the beginFrameOk
flag) returns false before any state is written; on success the current
lightmap index is set and the four texel buffers are filled from the view's
render targets. -/
def RenderLightmapGBuffer (impl : LightmapBakerImpl) (index : Nat) (beginFrameOk : Bool)
    (gbuffer : GBufferTextures) : Bool × LightmapBakerImpl :=
  if impl.lightmaps.length ≤ index then (false, impl)
  else if !beginFrameOk then (false, impl)
  else
    (true,
      { impl with
        currentLightmapIndex := index
        positionBuffer := gbuffer.position
        smoothPositionBuffer := gbuffer.smoothPosition
        faceNormalBuffer := gbuffer.faceNormal
        smoothNormalBuffer := gbuffer.smoothNormal })

/-! ## Ray caster (lines 594-706)

The inputs of the texel loop of BakeLightmap: atlas dimensions from the
current allocator, chunk count from the settings, the two texel attribute
buffers it reads, the normalized anti-light ray direction computed in the
prelude (lines 605-617; float normalization of the scene's first directional
light, supplied as a parameter), the maximum ray length, and the Embree
occlusion query rtcIntersect16 as an oracle from ray origin, direction and
tFar to whether a hit was found. -/
structure BakeInput where
  width : Nat
  height : Nat
  numParallelChunks : Nat
  positionBuffer : Nat → Vector4
  smoothNormalBuffer : Nat → Vector4
  rayDirection : Vector3
  maxRayLength : ℚ
  occluded : Vector3 → Vector3 → ℚ → Bool

/-- diffuseLight[i] (line 658): max(0, smoothNormal · rayDirection). -/
def diffuseLight (env : BakeInput) (index : Nat) : ℚ :=
  max 0 ((env.smoothNormalBuffer index).xyz.dotProduct env.rayDirection)

/-- The shadow factor of lines 660-692: ray origin biased by 0.001 along the
ray direction; 1 when the occlusion query finds no hit, 0 when it hits. -/
def rayShadow (env : BakeInput) (index : Nat) : ℚ :=
  let rayOrigin := (env.positionBuffer index).xyz.add (env.rayDirection.smul (1/1000))
  if env.occluded rayOrigin env.rayDirection env.maxRayLength then 0 else 1

/-- The value stored for a valid texel (line 693):
Color::WHITE * diffuseLight[i] * shadow. -/
def texelColor (env : BakeInput) (index : Nat) : Color :=
  (Color.WHITE.mulScalar (diffuseLight env index)).mulScalar (rayShadow env index)

/-- The writes of one ray packet (lines 635-695): lanes whose position-buffer
marker truncates to zero are invalid and write nothing; valid lanes write
texelColor at their texel index. -/
def packetWrites (env : BakeInput) (y packet : Nat) : List (Nat × Color) :=
  (List.range RayPacketSize).filterMap fun i =>
    let index := y * env.width + packet * RayPacketSize + i
    if floatToUnsigned (env.positionBuffer index).w = 0 then none
    else some (index, texelColor env index)

/-- The writes of one texel row: numRayPackets = width / RayPacketSize
packets (line 621). -/
def rowWrites (env : BakeInput) (y : Nat) : List (Nat × Color) :=
  (List.range (env.width / RayPacketSize)).flatMap (packetWrites env y)

/-- The rows of parallel chunk k (lines 622, 631-632): chunkHeight =
height / numParallelChunks, rows from k*chunkHeight (inclusive) to
min((k+1)*chunkHeight, height) (exclusive). -/
def chunkRows (height numParallelChunks k : Nat) : List Nat :=
  let chunkHeight := height / numParallelChunks
  let fromY := k * chunkHeight
  let toY := min ((k + 1) * chunkHeight) height
  (List.range (toY - fromY)).map (· + fromY)

/-- All writes performed by the task of parallel chunk k. -/
def chunkWrites (env : BakeInput) (k : Nat) : List (Nat × Color) :=
  (chunkRows env.height env.numParallelChunks k).flatMap (rowWrites env)

/-- Apply a list of index/value writes to the output buffer in order. -/
def applyWrites (buffer : List Color) (writes : List (Nat × Color)) : List Color :=
  writes.foldl (fun b p => b.set p.1 p.2) buffer

/-- The output buffer of BakeLightmap (lines 600-703): width*height texels
default-initialized to Color::WHITE (line 603), then overwritten by the
chunk tasks' writes. -/
def bakedLighting (env : BakeInput) : List Color :=
  applyWrites (List.replicate (env.width * env.height) Color.WHITE)
    ((List.range env.numParallelChunks).flatMap (chunkWrites env))

/-- LightmapBakedData (output of BakeLightmap). -/
structure LightmapBakedData where
  lightmapSize : IntVector2
  backedLighting : List Color
deriving DecidableEq, Repr

/-- Read of a texel attribute vector at an index (lines 645, 655-656); an
out-of-range read of the eastl vector is undefined behaviour, modelled as a
zero vector (whose zero marker makes the lane invalid). -/
def bufferAt (buffer : List Vector4) (index : Nat) : Vector4 :=
  buffer.getD index ⟨0, 0, 0, 0⟩

/-- LightmapBaker::BakeLightmap (lines 594-706). Line 596 indexes the
lightmap array with currentLightmapIndex_ without any bounds check; an
out-of-range index is undefined behaviour, modelled as none. rayDirection is
the normalized anti-direction of the first directional light (lines 605-617)
and maxRayLength the receivers' bounding-box diagonal (line 474), both float
computations supplied as parameters; occluded is the Embree occlusion query. -/
def BakeLightmap (impl : LightmapBakerImpl) (rayDirection : Vector3) (maxRayLength : ℚ)
    (occluded : Vector3 → Vector3 → ℚ → Bool) : Option LightmapBakedData :=
  match impl.lightmaps[impl.currentLightmapIndex]? with
  | none => none
  | some desc =>
    let lightmapWidth := desc.allocator.width.toNat
    let lightmapHeight := desc.allocator.height.toNat
    some
      { lightmapSize := ⟨desc.allocator.width, desc.allocator.height⟩
        backedLighting := bakedLighting
          { width := lightmapWidth
            height := lightmapHeight
            numParallelChunks := impl.settings.numParallelChunks
            positionBuffer := bufferAt impl.positionBuffer
            smoothNormalBuffer := bufferAt impl.smoothNormalBuffer
            rayDirection := rayDirection
            maxRayLength := maxRayLength
            occluded := occluded } }

/-- The lightmap state written onto a StaticModel component by
SetLightmap/SetLightmapIndex/SetLightmapScaleOffset. -/
structure StaticModelLightmapState where
  lightmap : Bool
  lightmapIndex : Nat
  lightmapScaleOffset : Vector4
deriving DecidableEq, Repr

/-- LightmapBaker::ApplyLightmapsToScene (lines 708-719): receivers are
paired positionally with the prior lightmap states of their components; a
receiver with a StaticModel gets the flag, the resolved index and the
region's scale/offset; a receiver without one is skipped, leaving its state
untouched. -/
def ApplyLightmapsToScene (baseLightmapIndex : Nat) :
    List LightReceiver → List StaticModelLightmapState → List StaticModelLightmapState
  | [], states => states
  | _ :: _, [] => []
  | receiver :: rest, state :: states =>
    (match receiver.staticModel with
     | some _ =>
       { lightmap := true
         lightmapIndex := baseLightmapIndex + receiver.region.lightmapIndex
         lightmapScaleOffset := receiver.region.GetScaleOffset }
     | none => state) :: ApplyLightmapsToScene baseLightmapIndex rest states

/-! ## Concrete inputs used by witnesses and counterexamples -/

/-- C10 witness input: a two-chunk 16×2 bake. -/
def envC10 : BakeInput :=
  { width := 16
    height := 2
    numParallelChunks := 2
    positionBuffer := fun _ => ⟨0, 0, 0, 1⟩
    smoothNormalBuffer := fun _ => ⟨0, 0, 1, 0⟩
    rayDirection := ⟨0, 0, 1⟩
    maxRayLength := 100
    occluded := fun _ _ _ => false }

/-- C1 witness input: a fully lit, unoccluded 16×2 atlas baked in 2 chunks. -/
def envC1w : BakeInput :=
  { width := 16
    height := 2
    numParallelChunks := 2
    positionBuffer := fun _ => ⟨0, 0, 0, 1⟩
    smoothNormalBuffer := fun _ => ⟨0, 0, 1, 0⟩
    rayDirection := ⟨0, 0, 1⟩
    maxRayLength := 100
    occluded := fun _ _ _ => false }

/-- C1 counterexample input: a dedicated 32×3 atlas baked with 16 parallel
chunks (chunkHeight = 3 / 16 = 0, so no row is processed), every texel marked
occupied and every occlusion query reporting a hit. -/
def envC1ce : BakeInput :=
  { width := 32
    height := 3
    numParallelChunks := 16
    positionBuffer := fun _ => ⟨0, 0, 0, 1⟩
    smoothNormalBuffer := fun _ => ⟨0, 0, 1, 0⟩
    rayDirection := ⟨0, 0, 1⟩
    maxRayLength := 100
    occluded := fun _ _ _ => true }

/-- C2 witness settings: atlas size 16, no padding, one chunk. -/
def settingsC2w : LightmapBakingSettings := ⟨16, 0, 1, 0, 1⟩

/-- C2 counterexample settings: atlas size 16, padding 1, one chunk. -/
def settingsC2ce : LightmapBakingSettings := ⟨16, 0, 1, 1, 1⟩

/-- C3 counterexample settings: atlas size 16, no padding, one chunk. -/
def settingsC3ce : LightmapBakingSettings := ⟨16, 0, 1, 0, 1⟩

/-- C3 witness settings: atlas size 16, padding 1, one chunk. -/
def settingsC3w : LightmapBakingSettings := ⟨16, 0, 1, 1, 1⟩

/-- C3 witness: the region allocated for a 4×4 request with padding 1 into an
empty atlas list (the allocation succeeds, so the Option can be projected). -/
def regionC3w : LightmapRegion × List LightmapDesc :=
  (AllocateLightmapRegion settingsC3w [] ⟨4, 4⟩).get (by decide)

/-- A GBufferTextures value with empty readbacks. -/
def gbufferEmpty : GBufferTextures := ⟨[], [], [], []⟩

/-- Valid settings used by the C5 counterexample (atlas 16, one chunk). -/
def settingsC5 : LightmapBakingSettings := ⟨16, 0, 1, 0, 1⟩

/-- C5 witness state: one regular 16×16 atlas present, no render done yet. -/
def implC5w : LightmapBakerImpl :=
  { LightmapBakerImpl.make settingsC5 [] 0 with lightmaps := [⟨AreaAllocator.Reset 16 16⟩] }

/-- C6 witness settings: 17 is divisible by neither 2 chunks nor 16. -/
def settingsC6ce : LightmapBakingSettings := ⟨17, 0, 1, 0, 2⟩

/-- C7 witness state: no atlases at all. -/
def implC7w : LightmapBakerImpl := LightmapBakerImpl.make ⟨16, 0, 1, 0, 1⟩ [] 0

/-- C8 failing-input settings. -/
def settingsC8 : LightmapBakingSettings := ⟨16, 0, 1, 0, 1⟩

/-- A receiver whose node has no StaticModel component; the parameter is the
indeterminate index of its default-constructed region. -/
def receiverWithoutModel (indeterminate : Nat) : LightReceiver :=
  ⟨⟨⟨1, 1, 1⟩, none⟩, none, LightmapRegion.defaultUninit indeterminate⟩

/-- C9 witness data: a receiver with a StaticModel and an allocated region,
and the prior (unset) lightmap state of its component. -/
def modelC9 : ModelData := ⟨⟨16, 16⟩, 10⟩

/-- C9 witness region. -/
def regionC9 : LightmapRegion := LightmapRegion.make 0 ⟨2, 2⟩ ⟨4, 4⟩ 16

/-- C9 witness receiver. -/
def receiverC9 : LightReceiver := ⟨⟨⟨1, 1, 1⟩, some modelC9⟩, some modelC9, regionC9⟩

/-- C9 witness prior component state. -/
def stateC9 : StaticModelLightmapState := ⟨false, 0, ⟨1, 1, 0, 0⟩⟩

/-! ## Helper lemmas: the write buffer -/

theorem getElem?_set_general {α : Type} (l : List α) (i j : Nat) (a : α) :
    (l.set i a)[j]? = if i = j ∧ j < l.length then some a else l[j]? := by
  rcases Decidable.em (i = j) with h | h
  · subst h
    rcases Decidable.em (i < l.length) with h2 | h2
    · simp [List.getElem?_set_self', h2, List.getElem?_eq_getElem h2]
    · simp only [h2, and_false, if_false]
      rw [List.set_eq_of_length_le (by omega)]
  · simp [List.getElem?_set_ne h, h]

theorem applyWrites_length (writes : List (Nat × Color)) (buffer : List Color) :
    (applyWrites buffer writes).length = buffer.length := by
  induction writes generalizing buffer with
  | nil => rfl
  | cons p writes ih =>
    simp only [applyWrites, List.foldl_cons] at *
    rw [ih]
    exact List.length_set ..

/-- When every write stores the value f applied to its own index, the final
buffer holds f at each written index (independently of the write order) and
the initial value elsewhere. -/
theorem applyWrites_getElem? (f : Nat → Color) (writes : List (Nat × Color))
    (hcons : ∀ p ∈ writes, p.2 = f p.1) (buffer : List Color) (idx : Nat) :
    (applyWrites buffer writes)[idx]? =
      if idx ∈ writes.map Prod.fst ∧ idx < buffer.length then some (f idx) else buffer[idx]? := by
  induction writes generalizing buffer with
  | nil => simp [applyWrites]
  | cons p writes ih =>
    have hp : p.2 = f p.1 := hcons p (List.mem_cons_self p writes)
    have hrest : ∀ q ∈ writes, q.2 = f q.1 := fun q hq => hcons q (List.mem_cons_of_mem p hq)
    simp only [applyWrites, List.foldl_cons]
    rw [show List.foldl (fun b q => b.set q.1 q.2) (buffer.set p.1 p.2) writes
        = applyWrites (buffer.set p.1 p.2) writes from rfl]
    rw [ih hrest, List.length_set, getElem?_set_general]
    by_cases hb : idx < buffer.length
    · by_cases hm : idx ∈ writes.map Prod.fst
      · simp [hm, hb]
      · by_cases he : p.1 = idx
        · subst he
          simp [hm, hb, hp]
        · have he2 : idx ≠ p.1 := fun h => he h.symm
          simp [hm, hb, he, he2]
    · simp [hb]

theorem mem_range_map_add (len off y : Nat) :
    y ∈ (List.range len).map (· + off) ↔ off ≤ y ∧ y < off + len := by
  simp only [List.mem_map, List.mem_range]
  constructor
  · rintro ⟨a, ha, rfl⟩
    omega
  · intro h
    exact ⟨y - off, by omega, by omega⟩

/-! ## Helper lemmas: the chunk partition -/

theorem mem_chunkRows (height numParallelChunks k y : Nat) :
    y ∈ chunkRows height numParallelChunks k ↔
      k * (height / numParallelChunks) ≤ y ∧
        y < min ((k + 1) * (height / numParallelChunks)) height := by
  unfold chunkRows
  rw [mem_range_map_add]
  omega

/-- A row below numParallelChunks * chunkHeight lies in exactly the chunk
y / chunkHeight. -/
theorem chunkRows_cover (height numParallelChunks y : Nat)
    (hy : y < numParallelChunks * (height / numParallelChunks)) :
    y / (height / numParallelChunks) < numParallelChunks ∧
      y ∈ chunkRows height numParallelChunks (y / (height / numParallelChunks)) := by
  have hcpos : 0 < height / numParallelChunks := by
    rcases Nat.eq_zero_or_pos (height / numParallelChunks) with h | h
    · rw [h, Nat.mul_zero] at hy
      omega
    · exact h
  have hdivlt : y / (height / numParallelChunks) < numParallelChunks :=
    (Nat.div_lt_iff_lt_mul hcpos).2 hy
  have hle : y / (height / numParallelChunks) * (height / numParallelChunks) ≤ y :=
    Nat.div_mul_le_self y (height / numParallelChunks)
  have hcH : numParallelChunks * (height / numParallelChunks) ≤ height := by
    rw [Nat.mul_comm]
    exact Nat.div_mul_le_self height numParallelChunks
  refine ⟨hdivlt, (mem_chunkRows ..).2 ⟨hle, ?_⟩⟩
  have hmod : y % (height / numParallelChunks) < height / numParallelChunks :=
    Nat.mod_lt y hcpos
  have h1 : y < (y / (height / numParallelChunks) + 1) * (height / numParallelChunks) := by
    calc y = height / numParallelChunks * (y / (height / numParallelChunks))
        + y % (height / numParallelChunks) := (Nat.div_add_mod ..).symm
    _ < height / numParallelChunks * (y / (height / numParallelChunks))
        + height / numParallelChunks := by omega
    _ = (y / (height / numParallelChunks) + 1) * (height / numParallelChunks) := by ring
  exact lt_min h1 (lt_of_lt_of_le hy hcH)

/-- Membership in a chunk determines the chunk index. -/
theorem chunkRows_unique (height numParallelChunks k y : Nat)
    (hy : y ∈ chunkRows height numParallelChunks k) :
    0 < height / numParallelChunks ∧ k = y / (height / numParallelChunks) := by
  rw [mem_chunkRows] at hy
  obtain ⟨h1, h2⟩ := hy
  have h3 : y < (k + 1) * (height / numParallelChunks) :=
    lt_of_lt_of_le h2 (min_le_left _ _)
  have hcpos : 0 < height / numParallelChunks := by
    rcases Nat.eq_zero_or_pos (height / numParallelChunks) with h0 | h0
    · rw [h0, Nat.mul_zero] at h3
      omega
    · exact h0
  exact ⟨hcpos, (Nat.div_eq_of_lt_le h1 h3).symm⟩

/-- Rows at or above numParallelChunks * chunkHeight belong to no chunk. -/
theorem chunkRows_not_mem (height numParallelChunks k y : Nat)
    (hk : k < numParallelChunks)
    (hy : numParallelChunks * (height / numParallelChunks) ≤ y) :
    y ∉ chunkRows height numParallelChunks k := by
  rw [mem_chunkRows]
  intro h
  have h3 : y < (k + 1) * (height / numParallelChunks) :=
    lt_of_lt_of_le h.2 (min_le_left _ _)
  have h2 : (k + 1) * (height / numParallelChunks)
      ≤ numParallelChunks * (height / numParallelChunks) :=
    Nat.mul_le_mul (by omega) (le_refl _)
  omega

/-! ## Helper lemmas: characterizing the ray caster's writes -/

theorem packetWrites_consistent (env : BakeInput) (y packet : Nat) :
    ∀ p ∈ packetWrites env y packet, p.2 = texelColor env p.1 := by
  intro p hp
  simp only [packetWrites, List.mem_filterMap, List.mem_range] at hp
  obtain ⟨i, hi, hsome⟩ := hp
  rcases Decidable.em
      (floatToUnsigned (env.positionBuffer (y * env.width + packet * RayPacketSize + i)).w = 0)
      with h | h
  · rw [if_pos h] at hsome
    exact absurd hsome (by simp)
  · rw [if_neg h] at hsome
    cases Option.some.inj hsome
    rfl

theorem chunkWrites_consistent (env : BakeInput) (k : Nat) :
    ∀ p ∈ chunkWrites env k, p.2 = texelColor env p.1 := by
  intro p hp
  simp only [chunkWrites, rowWrites, List.mem_flatMap, List.mem_range] at hp
  obtain ⟨y, _, packet, _, hp⟩ := hp
  exact packetWrites_consistent env y packet p hp

theorem bakeWrites_consistent (env : BakeInput) (order : List Nat) :
    ∀ p ∈ order.flatMap (chunkWrites env), p.2 = texelColor env p.1 := by
  intro p hp
  simp only [List.mem_flatMap] at hp
  obtain ⟨k, _, hp⟩ := hp
  exact chunkWrites_consistent env k p hp

theorem mem_packetWrites_fst (env : BakeInput) (y packet idx : Nat) :
    idx ∈ (packetWrites env y packet).map Prod.fst ↔
      ∃ i < RayPacketSize, idx = y * env.width + packet * RayPacketSize + i ∧
        floatToUnsigned (env.positionBuffer idx).w ≠ 0 := by
  simp only [packetWrites, List.mem_map, List.mem_filterMap, List.mem_range]
  constructor
  · rintro ⟨p, ⟨i, hi, hsome⟩, hfst⟩
    rcases Decidable.em
        (floatToUnsigned (env.positionBuffer (y * env.width + packet * RayPacketSize + i)).w = 0)
        with h | h
    · rw [if_pos h] at hsome
      exact absurd hsome (by simp)
    · rw [if_neg h] at hsome
      cases Option.some.inj hsome
      cases hfst
      exact ⟨i, hi, rfl, h⟩
  · rintro ⟨i, hi, rfl, hmark⟩
    exact ⟨(y * env.width + packet * RayPacketSize + i,
        texelColor env (y * env.width + packet * RayPacketSize + i)),
      ⟨i, hi, if_neg hmark⟩, rfl⟩

theorem mem_rowWrites_fst (env : BakeInput) (y idx : Nat) :
    idx ∈ (rowWrites env y).map Prod.fst ↔
      ∃ x < env.width / RayPacketSize * RayPacketSize,
        idx = y * env.width + x ∧ floatToUnsigned (env.positionBuffer idx).w ≠ 0 := by
  simp only [rowWrites, List.map_flatMap, List.mem_flatMap, List.mem_range,
    mem_packetWrites_fst]
  constructor
  · rintro ⟨packet, hpacket, i, hi, rfl, hmark⟩
    refine ⟨packet * RayPacketSize + i, ?_, by ring_nf, hmark⟩
    have h1 : packet + 1 ≤ env.width / RayPacketSize := hpacket
    have h2 : (packet + 1) * RayPacketSize ≤ env.width / RayPacketSize * RayPacketSize :=
      Nat.mul_le_mul h1 (le_refl _)
    simp only [RayPacketSize] at *
    omega
  · rintro ⟨x, hx, rfl, hmark⟩
    refine ⟨x / RayPacketSize, ?_, x % RayPacketSize, ?_, ?_, hmark⟩
    · have h1 : x < env.width / RayPacketSize * RayPacketSize := hx
      simp only [RayPacketSize] at *
      omega
    · simp only [RayPacketSize]
      omega
    · simp only [RayPacketSize] at *
      omega

theorem mem_chunkWrites_fst (env : BakeInput) (k idx : Nat) :
    idx ∈ (chunkWrites env k).map Prod.fst ↔
      ∃ y ∈ chunkRows env.height env.numParallelChunks k,
        ∃ x < env.width / RayPacketSize * RayPacketSize,
          idx = y * env.width + x ∧ floatToUnsigned (env.positionBuffer idx).w ≠ 0 := by
  simp only [chunkWrites, List.map_flatMap, List.mem_flatMap, mem_rowWrites_fst]

/-- A texel index written by one chunk is written by no other chunk: the row
y = idx / width determines the chunk. -/
theorem chunkWrites_disjoint (env : BakeInput) (k1 k2 : Nat) (hne : k1 ≠ k2) (idx : Nat)
    (h1 : idx ∈ (chunkWrites env k1).map Prod.fst) :
    idx ∉ (chunkWrites env k2).map Prod.fst := by
  intro h2
  rw [mem_chunkWrites_fst] at h1 h2
  obtain ⟨y1, hy1, x1, hx1, hidx1, -⟩ := h1
  obtain ⟨y2, hy2, x2, hx2, hidx2, -⟩ := h2
  have hxw1 : x1 < env.width :=
    lt_of_lt_of_le hx1 (Nat.div_mul_le_self env.width RayPacketSize)
  have hxw2 : x2 < env.width :=
    lt_of_lt_of_le hx2 (Nat.div_mul_le_self env.width RayPacketSize)
  have hW : 0 < env.width := by omega
  have hdiv1 : idx / env.width = y1 := by
    rw [hidx1, Nat.mul_comm y1, Nat.mul_add_div hW, Nat.div_eq_of_lt hxw1]
    omega
  have hdiv2 : idx / env.width = y2 := by
    rw [hidx2, Nat.mul_comm y2, Nat.mul_add_div hW, Nat.div_eq_of_lt hxw2]
    omega
  have hyy : y1 = y2 := by rw [← hdiv1, hdiv2]
  subst hyy
  obtain ⟨-, hk1⟩ := chunkRows_unique _ _ _ _ hy1
  obtain ⟨-, hk2⟩ := chunkRows_unique _ _ _ _ hy2
  exact hne (hk1.trans hk2.symm)

theorem floatToUnsigned_natCast (n : Nat) : floatToUnsigned (n : ℚ) = n := by
  unfold floatToUnsigned
  rw [Rat.num_natCast, Rat.den_natCast]
  simp

/-! ## Claim C4 -/

/-- C4 counterexample: with atlas height 5 and 2 parallel chunks, chunkHeight
is 5 / 2 = 2 and the chunks cover rows [0,2) and [2,4) only: row 4 is
processed by no chunk, contradicting the claim that the last band absorbs the
remainder rows and every row is processed by exactly one band. -/
theorem chunkRows_remainder_row_dropped :
    4 < 5 ∧ ∀ k < 2, 4 ∉ chunkRows 5 2 k := by decide

/-- C4 (amended): the chunks of BakeLightmap are equal-height bands of
chunkHeight = height / numParallelChunks rows; every row below
numParallelChunks * chunkHeight lies in exactly one chunk, rows at or above
that bound (the remainder when the height is not divisible) lie in no chunk,
and when numParallelChunks divides the height every row of the atlas lies in
exactly one chunk. -/
theorem chunkRows_partition (height numParallelChunks : Nat) :
    (∀ y < numParallelChunks * (height / numParallelChunks),
      ∃! k, k < numParallelChunks ∧ y ∈ chunkRows height numParallelChunks k) ∧
    (∀ y, numParallelChunks * (height / numParallelChunks) ≤ y →
      ∀ k < numParallelChunks, y ∉ chunkRows height numParallelChunks k) ∧
    (numParallelChunks ∣ height → ∀ y < height,
      ∃! k, k < numParallelChunks ∧ y ∈ chunkRows height numParallelChunks k) := by
  have hmain : ∀ y < numParallelChunks * (height / numParallelChunks),
      ∃! k, k < numParallelChunks ∧ y ∈ chunkRows height numParallelChunks k := by
    intro y hy
    obtain ⟨hlt, hmem⟩ := chunkRows_cover height numParallelChunks y hy
    refine ⟨y / (height / numParallelChunks), ⟨hlt, hmem⟩, ?_⟩
    rintro k ⟨-, hk⟩
    exact (chunkRows_unique height numParallelChunks k y hk).2
  refine ⟨hmain, ?_, ?_⟩
  · intro y hy k hk
    exact chunkRows_not_mem height numParallelChunks k y hk hy
  · intro hdvd y hy
    exact hmain y (by rw [Nat.mul_div_cancel' hdvd]; exact hy)

/-- C4 witness: with height 7 and 2 chunks, row 3 (below 2 * (7/2) = 6) lies
in exactly one chunk. -/
theorem chunkRows_partition_witness :
    ∃! k, k < 2 ∧ 3 ∈ chunkRows 7 2 k :=
  (chunkRows_partition 7 2).1 3 (by decide)

/-! ## Claim C10 -/

/-- C10: the ray caster of BakeLightmap is deterministic under its parallel
decomposition: distinct chunk tasks write pairwise disjoint texel indices,
and running the chunk tasks in any order (any permutation of the chunk list)
produces exactly the buffer bakedLighting computes — so two runs on identical
inputs produce bit-identical output buffers regardless of scheduling. -/
theorem BakeLightmap_parallel_deterministic (env : BakeInput) :
    (∀ k1 k2, k1 ≠ k2 → ∀ idx, idx ∈ (chunkWrites env k1).map Prod.fst →
      idx ∉ (chunkWrites env k2).map Prod.fst) ∧
    (∀ order : List Nat, order.Perm (List.range env.numParallelChunks) →
      applyWrites (List.replicate (env.width * env.height) Color.WHITE)
        (order.flatMap (chunkWrites env)) = bakedLighting env) := by
  constructor
  · exact fun k1 k2 hne idx h1 => chunkWrites_disjoint env k1 k2 hne idx h1
  · intro order hperm
    have hmem : ∀ idx, idx ∈ (order.flatMap (chunkWrites env)).map Prod.fst ↔
        idx ∈ ((List.range env.numParallelChunks).flatMap (chunkWrites env)).map Prod.fst := by
      intro idx
      simp only [List.map_flatMap, List.mem_flatMap]
      constructor
      · rintro ⟨k, hk, h⟩
        exact ⟨k, hperm.mem_iff.mp hk, h⟩
      · rintro ⟨k, hk, h⟩
        exact ⟨k, hperm.mem_iff.mpr hk, h⟩
    apply List.ext_getElem?
    intro idx
    rw [bakedLighting,
      applyWrites_getElem? (texelColor env) _ (bakeWrites_consistent env order) _ idx,
      applyWrites_getElem? (texelColor env) _
        (bakeWrites_consistent env (List.range env.numParallelChunks)) _ idx]
    exact if_congr (and_congr_left' (hmem idx)) rfl rfl

/-- C10 witness: on the concrete two-chunk bake input envC10, running the
chunks in order [1, 0] yields the same buffer as bakedLighting. -/
theorem BakeLightmap_parallel_deterministic_witness :
    applyWrites (List.replicate (envC10.width * envC10.height) Color.WHITE)
      ([1, 0].flatMap (chunkWrites envC10)) = bakedLighting envC10 :=
  (BakeLightmap_parallel_deterministic envC10).2 [1, 0] (by decide)

/-! ## Claim C1 -/

/-- C1 (amended): provided the atlas height is divisible by the parallel
chunk count (every regular atlas satisfies this through the validated
settings; dedicated atlases need not), BakeLightmap fills a width*height
buffer in which a texel whose position-marker w is zero keeps the default
white and a texel with a non-zero (integral, as produced by the G-buffer
geometry-id channel) marker holds
Color.WHITE * max(0, smoothNormal·rayDirection) * shadow, shadow being 1 on a
missed occlusion query and 0 on a hit (texelColor). -/
theorem BakeLightmap_texel_values (env : BakeInput)
    (hdvd : env.numParallelChunks ∣ env.height)
    (hW : RayPacketSize ∣ env.width)
    (idx : Nat) (hidx : idx < env.width * env.height)
    (n : Nat) (hmark : (env.positionBuffer idx).w = (n : ℚ)) :
    (bakedLighting env).length = env.width * env.height ∧
    ((env.positionBuffer idx).w = 0 → (bakedLighting env)[idx]? = some Color.WHITE) ∧
    ((env.positionBuffer idx).w ≠ 0 → (bakedLighting env)[idx]? = some (texelColor env idx)) := by
  have hlen : (bakedLighting env).length = env.width * env.height := by
    rw [bakedLighting, applyWrites_length, List.length_replicate]
  have happly := applyWrites_getElem? (texelColor env) _
    (bakeWrites_consistent env (List.range env.numParallelChunks))
    (List.replicate (env.width * env.height) Color.WHITE) idx
  rw [List.length_replicate] at happly
  refine ⟨hlen, ?_, ?_⟩
  · intro hzero
    have hmark0 : floatToUnsigned (env.positionBuffer idx).w = 0 := by
      rw [hzero]
      rfl
    have hnot : idx ∉
        ((List.range env.numParallelChunks).flatMap (chunkWrites env)).map Prod.fst := by
      intro hmem
      simp only [List.map_flatMap, List.mem_flatMap] at hmem
      obtain ⟨k, -, hmem⟩ := hmem
      rw [mem_chunkWrites_fst] at hmem
      obtain ⟨y, -, x, -, -, hne⟩ := hmem
      exact hne hmark0
    rw [bakedLighting, happly, if_neg (fun h => hnot h.1), List.getElem?_replicate,
      if_pos hidx]
  · intro hnz
    have hn : n ≠ 0 := by
      intro h0
      rw [h0] at hmark
      exact hnz (by rw [hmark]; norm_num)
    have hmarkne : floatToUnsigned (env.positionBuffer idx).w ≠ 0 := by
      rw [hmark, floatToUnsigned_natCast]
      exact hn
    have hWH : 0 < env.width * env.height := lt_of_le_of_lt (Nat.zero_le idx) hidx
    have hWpos : 0 < env.width := by
      rcases Nat.eq_zero_or_pos env.width with h | h
      · rw [h, Nat.zero_mul] at hWH
        omega
      · exact h
    have hx : idx % env.width < env.width := Nat.mod_lt idx hWpos
    have hdecomp : idx = idx / env.width * env.width + idx % env.width := by
      rw [Nat.mul_comm]
      exact (Nat.div_add_mod idx env.width).symm
    have hyH : idx / env.width < env.height :=
      (Nat.div_lt_iff_lt_mul hWpos).2 (by rw [Nat.mul_comm] at hidx; exact hidx)
    have hHc : env.numParallelChunks * (env.height / env.numParallelChunks) = env.height :=
      Nat.mul_div_cancel' hdvd
    obtain ⟨hklt, hkmem⟩ := chunkRows_cover env.height env.numParallelChunks (idx / env.width)
      (by rw [hHc]; exact hyH)
    have hxr : idx % env.width < env.width / RayPacketSize * RayPacketSize := by
      rw [Nat.div_mul_cancel hW]
      exact hx
    have hmem : idx ∈
        ((List.range env.numParallelChunks).flatMap (chunkWrites env)).map Prod.fst := by
      simp only [List.map_flatMap, List.mem_flatMap]
      exact ⟨_, List.mem_range.2 hklt,
        (mem_chunkWrites_fst env _ idx).2
          ⟨idx / env.width, hkmem, idx % env.width, hxr, hdecomp, hmarkne⟩⟩
    rw [bakedLighting, happly, if_pos ⟨hmem, hidx⟩]

theorem BakeLightmap_texel_values_witness :
    (bakedLighting envC1w).length = envC1w.width * envC1w.height ∧
    ((envC1w.positionBuffer 5).w = 0 → (bakedLighting envC1w)[5]? = some Color.WHITE) ∧
    ((envC1w.positionBuffer 5).w ≠ 0 →
      (bakedLighting envC1w)[5]? = some (texelColor envC1w 5)) :=
  BakeLightmap_texel_values envC1w (by decide) (by decide) 5 (by decide) 1 (by norm_num [envC1w])

/-- C1 counterexample: on envC1ce, texel 0 has a non-zero marker, the claim's
formula gives black (diffuse 1, shadow 0), yet BakeLightmap leaves the texel
at the default white because its row is processed by no chunk. -/
theorem BakeLightmap_texel_values_counterexample :
    (envC1ce.positionBuffer 0).w ≠ 0 ∧
    texelColor envC1ce 0 = ⟨0, 0, 0, 0⟩ ∧
    (bakedLighting envC1ce)[0]? = some Color.WHITE ∧
    Color.WHITE ≠ (⟨0, 0, 0, 0⟩ : Color) := by
  refine ⟨by norm_num [envC1ce], ?_, by decide, by decide⟩
  simp only [texelColor, diffuseLight, rayShadow, envC1ce, Vector4.xyz, Vector3.dotProduct,
    Color.mulScalar, Color.WHITE, if_pos]
  norm_num

/-! ## Helper lemmas: the rect packer -/

theorem allocateFrom_fit (w h : Int) (l : List IntRect) (pos : IntVector2)
    (rest : List IntRect) (hres : allocateFrom w h l = some (pos, rest)) :
    ∃ r ∈ l, pos = ⟨r.left, r.top⟩ ∧ w ≤ r.right - r.left ∧ h ≤ r.bottom - r.top := by
  induction l generalizing pos rest with
  | nil => exact absurd hres (by simp [allocateFrom])
  | cons r l ih =>
    rw [allocateFrom] at hres
    by_cases hfit : w ≤ r.right - r.left ∧ h ≤ r.bottom - r.top
    · rw [if_pos hfit] at hres
      simp only [Option.some.injEq, Prod.mk.injEq] at hres
      exact ⟨r, List.mem_cons_self r l, hres.1.symm, hfit.1, hfit.2⟩
    · rw [if_neg hfit] at hres
      obtain ⟨pr, heq, hmap⟩ := Option.map_eq_some'.mp hres
      simp only [Prod.mk.injEq] at hmap
      obtain ⟨r2, hr2, hrest⟩ := ih pr.1 pr.2 (by rw [heq])
      exact ⟨r2, List.mem_cons_of_mem r hr2, hmap.1 ▸ hrest⟩

theorem allocateFrom_rest (w h : Int) (hw : 0 ≤ w) (hh : 0 ≤ h) (l : List IntRect)
    (pos : IntVector2) (rest : List IntRect)
    (hres : allocateFrom w h l = some (pos, rest)) :
    ∀ s ∈ rest, ∃ r ∈ l,
      r.left ≤ s.left ∧ r.top ≤ s.top ∧ s.right ≤ r.right ∧ s.bottom ≤ r.bottom := by
  induction l generalizing pos rest with
  | nil => exact absurd hres (by simp [allocateFrom])
  | cons r l ih =>
    rw [allocateFrom] at hres
    by_cases hfit : w ≤ r.right - r.left ∧ h ≤ r.bottom - r.top
    · rw [if_pos hfit] at hres
      simp only [Option.some.injEq, Prod.mk.injEq] at hres
      intro s hs
      rw [← hres.2] at hs
      rcases List.mem_append.mp hs with hsplit | hl
      · have hs2 := List.mem_filter.mp hsplit
        simp only [List.mem_cons, List.not_mem_nil, or_false] at hs2
        obtain ⟨hf1, hf2⟩ := hfit
        rcases hs2.1 with rfl | rfl
        · refine ⟨r, List.mem_cons_self r l, ?_, ?_, ?_, ?_⟩ <;> dsimp only <;> omega
        · refine ⟨r, List.mem_cons_self r l, ?_, ?_, ?_, ?_⟩ <;> dsimp only <;> omega
      · exact ⟨s, List.mem_cons_of_mem r hl, le_refl _, le_refl _, le_refl _, le_refl _⟩
    · rw [if_neg hfit] at hres
      obtain ⟨pr, heq, hmap⟩ := Option.map_eq_some'.mp hres
      simp only [Prod.mk.injEq] at hmap
      intro s hs
      rw [← hmap.2] at hs
      rcases List.mem_cons.mp hs with rfl | hl
      · exact ⟨s, List.mem_cons_self s l, le_refl _, le_refl _, le_refl _, le_refl _⟩
      · obtain ⟨r2, hr2, hb⟩ := ih pr.1 pr.2 (by rw [heq]) s hl
        exact ⟨r2, List.mem_cons_of_mem r hr2, hb⟩

/-- Successful allocation from a well-formed allocator: the returned position
and the requested extent fit inside the canvas, and the allocator stays
well-formed on the same canvas. -/
theorem Allocate_spec (a : AreaAllocator) (w h : Int) (hwf : a.WF) (pos : IntVector2)
    (a2 : AreaAllocator) (hres : a.Allocate w h = some (pos, a2)) :
    0 ≤ pos.x ∧ 0 ≤ pos.y ∧ pos.x + w ≤ a.width ∧ pos.y + h ≤ a.height ∧
      a2.width = a.width ∧ a2.height = a.height ∧ a2.WF := by
  unfold AreaAllocator.Allocate at hres
  by_cases hguard : w ≤ 0 ∨ h ≤ 0
  · rw [if_pos hguard] at hres
    exact absurd hres (by simp)
  · rw [if_neg hguard] at hres
    push_neg at hguard
    obtain ⟨pr, heq, hmap⟩ := Option.map_eq_some'.mp hres
    simp only [Prod.mk.injEq] at hmap
    obtain ⟨r, hr, hposeq, hfw, hfh⟩ := allocateFrom_fit w h _ pr.1 pr.2 (by rw [heq])
    have hrc := hwf r hr
    obtain ⟨hc1, hc2, hc3, hc4⟩ := hrc
    have hb : 0 ≤ pr.1.x ∧ 0 ≤ pr.1.y ∧ pr.1.x + w ≤ a.width ∧ pr.1.y + h ≤ a.height := by
      rw [hposeq]
      refine ⟨?_, ?_, ?_, ?_⟩ <;> dsimp only <;> omega
    refine ⟨hmap.1 ▸ hb.1, hmap.1 ▸ hb.2.1, hmap.1 ▸ hb.2.2.1, hmap.1 ▸ hb.2.2.2, ?_, ?_, ?_⟩
    · rw [← hmap.2]
    · rw [← hmap.2]
    · rw [← hmap.2]
      intro s hs
      obtain ⟨r2, hr2, hb1, hb2, hb3, hb4⟩ :=
        allocateFrom_rest w h (by omega) (by omega) _ pr.1 pr.2 (by rw [heq]) s hs
      obtain ⟨hd1, hd2, hd3, hd4⟩ := hwf r2 hr2
      refine ⟨?_, ?_, ?_, ?_⟩ <;> dsimp only <;> omega

theorem allocateFrom_none (w h : Int) (l : List IntRect)
    (hno : ∀ r ∈ l, ¬(w ≤ r.right - r.left ∧ h ≤ r.bottom - r.top)) :
    allocateFrom w h l = none := by
  induction l with
  | nil => rfl
  | cons r l ih =>
    rw [allocateFrom, if_neg (hno r (List.mem_cons_self r l)),
      ih (fun r2 hr2 => hno r2 (List.mem_cons_of_mem r hr2))]
    rfl

/-- A request wider or taller than the canvas of a well-formed allocator
always fails. -/
theorem Allocate_none_of_too_big (a : AreaAllocator) (w h : Int) (hwf : a.WF)
    (hbig : a.width < w ∨ a.height < h) : a.Allocate w h = none := by
  unfold AreaAllocator.Allocate
  by_cases hguard : w ≤ 0 ∨ h ≤ 0
  · rw [if_pos hguard]
  · rw [if_neg hguard]
    rw [allocateFrom_none w h a.freeAreas (fun r hr => by
      obtain ⟨hc1, hc2, hc3, hc4⟩ := hwf r hr
      omega)]
    rfl

/-- A fully allocated allocator (empty free list) rejects every request. -/
theorem Allocate_none_of_full (a : AreaAllocator) (w h : Int)
    (hempty : a.freeAreas = []) : a.Allocate w h = none := by
  unfold AreaAllocator.Allocate
  rw [hempty]
  split
  · rfl
  · rfl

/-- A fresh canvas is well-formed. -/
theorem Reset_WF (w h : Int) : (AreaAllocator.Reset w h).WF := by
  intro r hr
  simp only [AreaAllocator.Reset, List.mem_cons, List.not_mem_nil, or_false] at hr
  subst hr
  exact ⟨le_refl _, le_refl _, le_refl _, le_refl _⟩

/-- Allocating the whole fresh canvas succeeds at the origin and leaves no
free area. -/
theorem Reset_Allocate_full (w h : Int) (hw : 0 < w) (hh : 0 < h) :
    (AreaAllocator.Reset w h).Allocate w h = some (⟨0, 0⟩, ⟨w, h, []⟩) := by
  unfold AreaAllocator.Reset AreaAllocator.Allocate
  rw [if_neg (by omega)]
  have hfrom : allocateFrom w h [⟨0, 0, w, h⟩] =
      some (⟨0, 0⟩, splitFreeArea ⟨0, 0, w, h⟩ w h ++ []) := by
    rw [allocateFrom, if_pos (by refine ⟨?_, ?_⟩ <;> dsimp only <;> omega)]
  rw [hfrom]
  have hsplit : splitFreeArea ⟨0, 0, w, h⟩ w h = [] := by
    unfold splitFreeArea
    have e1 : decide ((0 : Int) + w < w) = false := decide_eq_false (by omega)
    have e2 : decide ((0 : Int) + h < h) = false := decide_eq_false (by omega)
    dsimp only [List.filter]
    rw [e1, e2]
    simp
  rw [hsplit]
  rfl

/-! ## Helper lemmas: the atlas list -/

theorem tryExistingLightmaps_none_of_big (L w h : Int) (lightmaps : List LightmapDesc)
    (hwf : LightmapsWF L lightmaps) (hbig : L < w ∨ L < h) :
    tryExistingLightmaps w h lightmaps = none := by
  induction lightmaps with
  | nil => rfl
  | cons d rest ih =>
    obtain ⟨hdwf, hdisj⟩ := hwf d (List.mem_cons_self d rest)
    have hnone : d.allocator.Allocate w h = none := by
      rcases hdisj with ⟨hwd, hhd⟩ | hfull
      · exact Allocate_none_of_too_big _ w h hdwf (by rw [hwd, hhd]; exact hbig)
      · exact Allocate_none_of_full _ w h hfull
    rw [tryExistingLightmaps, hnone,
      ih (fun d2 hd2 => hwf d2 (List.mem_cons_of_mem d hd2))]
    rfl

/-- A successful allocation from an existing well-formed atlas list places
the padded rectangle inside the configured L×L canvas and keeps the list
well-formed. -/
theorem tryExistingLightmaps_some_spec (L w h : Int) (lightmaps : List LightmapDesc)
    (hwf : LightmapsWF L lightmaps) (i : Nat) (pos : IntVector2)
    (updated : List LightmapDesc)
    (hres : tryExistingLightmaps w h lightmaps = some (i, pos, updated)) :
    (0 ≤ pos.x ∧ 0 ≤ pos.y ∧ pos.x + w ≤ L ∧ pos.y + h ≤ L) ∧ LightmapsWF L updated := by
  induction lightmaps generalizing i pos updated with
  | nil => exact absurd hres (by simp [tryExistingLightmaps])
  | cons d rest ih =>
    obtain ⟨hdwf, hdisj⟩ := hwf d (List.mem_cons_self d rest)
    have hwfrest : LightmapsWF L rest := fun d2 hd2 => hwf d2 (List.mem_cons_of_mem d hd2)
    rw [tryExistingLightmaps] at hres
    rcases hAl : d.allocator.Allocate w h with - | ⟨pos2, alloc2⟩
    · rw [hAl] at hres
      simp only at hres
      obtain ⟨pr, heq, hmap⟩ := Option.map_eq_some'.mp hres
      simp only [Prod.mk.injEq] at hmap
      obtain ⟨hb, hwfu⟩ := ih hwfrest pr.1 pr.2.1 pr.2.2 (by rw [heq])
      refine ⟨hmap.2.1 ▸ hb, ?_⟩
      rw [← hmap.2.2]
      intro d2 hd2
      rcases List.mem_cons.mp hd2 with rfl | hd3
      · exact ⟨hdwf, hdisj⟩
      · exact hwfu d2 hd3
    · rw [hAl] at hres
      simp only [Option.some.injEq, Prod.mk.injEq] at hres
      rcases hdisj with ⟨hwd, hhd⟩ | hfull
      · obtain ⟨hs1, hs2, hs3, hs4, hs5, hs6, hs7⟩ :=
          Allocate_spec d.allocator w h hdwf pos2 alloc2 hAl
        refine ⟨?_, ?_⟩
        · rw [← hres.2.1]
          refine ⟨hs1, hs2, by omega, by omega⟩
        · rw [← hres.2.2]
          intro d2 hd2
          rcases List.mem_cons.mp hd2 with rfl | hd3
          · exact ⟨hs7, Or.inl ⟨by rw [hs5, hwd], by rw [hs6, hhd]⟩⟩
          · exact hwf d2 (List.mem_cons_of_mem d hd3)
      · rw [Allocate_none_of_full _ w h hfull] at hAl
        exact absurd hAl (by simp)

/-! ## Claim C2 -/

/-- C2 (amended): a request whose unpadded size exceeds the configured atlas
size in either dimension (the source line 224 tests the unpadded size) gets a
dedicated atlas: no existing well-formed atlas can take it, a fresh allocator
of width = requested width rounded up to the next multiple of RayPacketSize
and height = requested height is created and fully allocated, and the
region's texel rectangle sits at the origin with the requested size. The
rounded width is a multiple of RayPacketSize, at least the requested width,
and less than the requested width plus RayPacketSize. -/
theorem AllocateLightmapRegion_dedicated (settings : LightmapBakingSettings)
    (lightmaps : List LightmapDesc) (size : IntVector2)
    (hwf : LightmapsWF (settings.lightmapSize : Int) lightmaps)
    (hover : (settings.lightmapSize : Int) < size.x ∨ (settings.lightmapSize : Int) < size.y)
    (hpx : 0 < size.x) (hpy : 0 < size.y) :
    AllocateLightmapRegion settings lightmaps size =
      some (LightmapRegion.make lightmaps.length ⟨0, 0⟩ size settings.lightmapSize,
        lightmaps ++
          [⟨⟨(size.x + (RayPacketSize : Int) - 1) / (RayPacketSize : Int) * (RayPacketSize : Int),
            size.y, []⟩⟩]) ∧
    (RayPacketSize : Int) ∣
      (size.x + (RayPacketSize : Int) - 1) / (RayPacketSize : Int) * (RayPacketSize : Int) ∧
    size.x ≤ (size.x + (RayPacketSize : Int) - 1) / (RayPacketSize : Int) * (RayPacketSize : Int) ∧
    (size.x + (RayPacketSize : Int) - 1) / (RayPacketSize : Int) * (RayPacketSize : Int)
      < size.x + (RayPacketSize : Int) := by
  have hR : (RayPacketSize : Int) = 16 := by norm_num [RayPacketSize]
  have hpad : (0 : Int) ≤ (settings.lightmapPadding : Int) := Int.natCast_nonneg _
  have hnone : tryExistingLightmaps (size.x + 2 * (settings.lightmapPadding : Int))
      (size.y + 2 * (settings.lightmapPadding : Int)) lightmaps = none :=
    tryExistingLightmaps_none_of_big (settings.lightmapSize : Int) _ _ lightmaps hwf (by omega)
  have hsx : 0 < (size.x + (RayPacketSize : Int) - 1) / (RayPacketSize : Int)
      * (RayPacketSize : Int) := by
    rw [hR]
    omega
  have hle : size.x ≤ (size.x + (RayPacketSize : Int) - 1) / (RayPacketSize : Int)
      * (RayPacketSize : Int) := by
    rw [hR]
    omega
  have hlt : (size.x + (RayPacketSize : Int) - 1) / (RayPacketSize : Int)
      * (RayPacketSize : Int) < size.x + (RayPacketSize : Int) := by
    rw [hR]
    omega
  refine ⟨?_, dvd_mul_left _ _, hle, hlt⟩
  unfold AllocateLightmapRegion
  rw [hnone, if_pos hover, Reset_Allocate_full _ _ hsx hpy]
  dsimp only
  rw [if_pos rfl]

/-- C2 witness: a 17×5 request against the 16-texel atlas settings and an
empty atlas list receives a dedicated fully-allocated 32×5 atlas with the
region at the origin. -/
theorem AllocateLightmapRegion_dedicated_witness :
    AllocateLightmapRegion settingsC2w [] ⟨17, 5⟩ =
      some (LightmapRegion.make 0 ⟨0, 0⟩ ⟨17, 5⟩ 16,
        [⟨⟨(17 + (RayPacketSize : Int) - 1) / (RayPacketSize : Int) * (RayPacketSize : Int),
          5, []⟩⟩]) ∧
    (RayPacketSize : Int) ∣
      (17 + (RayPacketSize : Int) - 1) / (RayPacketSize : Int) * (RayPacketSize : Int) ∧
    (17 : Int) ≤ (17 + (RayPacketSize : Int) - 1) / (RayPacketSize : Int) * (RayPacketSize : Int) ∧
    (17 + (RayPacketSize : Int) - 1) / (RayPacketSize : Int) * (RayPacketSize : Int)
      < 17 + (RayPacketSize : Int) :=
  AllocateLightmapRegion_dedicated settingsC2w [] ⟨17, 5⟩
    (fun d hd => absurd hd (List.not_mem_nil d)) (by decide) (by decide) (by decide)

/-- C2 counterexample: with padding 1 and atlas size 16, the 16×16 request
has padded size 18×18 exceeding the atlas in both dimensions, yet the
allocator does not create a dedicated atlas: line 224 compares the unpadded
size, takes the regular branch, and the 18×18 allocation into the fresh
16×16 atlas fails its assert(success) (modelled as none). -/
theorem AllocateLightmapRegion_padded_oversize_counterexample :
    (settingsC2ce.lightmapSize : Int) <
        (16 + 2 * (settingsC2ce.lightmapPadding : Int) : Int) ∧
    AllocateLightmapRegion settingsC2ce [] ⟨16, 16⟩ = none := by
  constructor
  · decide
  · decide

/-! ## Claim C3 -/

/-- UV bounds of a region constructed by LightmapRegion.make whose texel
rectangle fits inside the maxSize×maxSize square. -/
theorem make_uv_bounds (i : Nat) (pos size : IntVector2) (maxSize : Nat)
    (hmax : 0 < maxSize) (h1 : 0 ≤ pos.x) (h2 : 0 ≤ pos.y)
    (h3 : pos.x + size.x ≤ (maxSize : Int)) (h4 : pos.y + size.y ≤ (maxSize : Int))
    (h5 : 0 ≤ size.x) (h6 : 0 ≤ size.y) :
    (0 ≤ (LightmapRegion.make i pos size maxSize).lightmapUVRect.min.x ∧
      (LightmapRegion.make i pos size maxSize).lightmapUVRect.min.x ≤ 1) ∧
    (0 ≤ (LightmapRegion.make i pos size maxSize).lightmapUVRect.min.y ∧
      (LightmapRegion.make i pos size maxSize).lightmapUVRect.min.y ≤ 1) ∧
    (0 ≤ (LightmapRegion.make i pos size maxSize).lightmapUVRect.max.x ∧
      (LightmapRegion.make i pos size maxSize).lightmapUVRect.max.x ≤ 1) ∧
    (0 ≤ (LightmapRegion.make i pos size maxSize).lightmapUVRect.max.y ∧
      (LightmapRegion.make i pos size maxSize).lightmapUVRect.max.y ≤ 1) := by
  have hq : (0 : ℚ) < (maxSize : ℚ) := by exact_mod_cast hmax
  unfold LightmapRegion.make
  dsimp only
  refine ⟨⟨?_, ?_⟩, ⟨?_, ?_⟩, ⟨?_, ?_⟩, ⟨?_, ?_⟩⟩
  · exact div_nonneg (by exact_mod_cast h1) (le_of_lt hq)
  · rw [div_le_one hq]
    exact_mod_cast (by omega : pos.x ≤ (maxSize : Int))
  · exact div_nonneg (by exact_mod_cast h2) (le_of_lt hq)
  · rw [div_le_one hq]
    exact_mod_cast (by omega : pos.y ≤ (maxSize : Int))
  · exact div_nonneg (by exact_mod_cast (by omega : (0 : Int) ≤ pos.x + size.x)) (le_of_lt hq)
  · rw [div_le_one hq]
    exact_mod_cast h3
  · exact div_nonneg (by exact_mod_cast (by omega : (0 : Int) ≤ pos.y + size.y)) (le_of_lt hq)
  · rw [div_le_one hq]
    exact_mod_cast h4

/-- C3 (amended): every region successfully allocated from a well-formed
atlas list for a request that does NOT exceed the configured atlas size in
either dimension has its normalized UV rectangle inside [0,1]²; the original
claim fails for dedicated oversized atlases, whose UV rectangle is divided by
the configured atlas size rather than the dedicated atlas size (line 236) and
therefore exceeds 1. -/
theorem AllocateLightmapRegion_uv_unit (settings : LightmapBakingSettings)
    (lightmaps : List LightmapDesc) (size : IntVector2) (region : LightmapRegion)
    (lightmaps2 : List LightmapDesc)
    (hwf : LightmapsWF (settings.lightmapSize : Int) lightmaps)
    (hL : 0 < settings.lightmapSize)
    (hx : size.x ≤ (settings.lightmapSize : Int)) (hy : size.y ≤ (settings.lightmapSize : Int))
    (hx0 : 0 ≤ size.x) (hy0 : 0 ≤ size.y)
    (hres : AllocateLightmapRegion settings lightmaps size = some (region, lightmaps2)) :
    (0 ≤ region.lightmapUVRect.min.x ∧ region.lightmapUVRect.min.x ≤ 1) ∧
    (0 ≤ region.lightmapUVRect.min.y ∧ region.lightmapUVRect.min.y ≤ 1) ∧
    (0 ≤ region.lightmapUVRect.max.x ∧ region.lightmapUVRect.max.x ≤ 1) ∧
    (0 ≤ region.lightmapUVRect.max.y ∧ region.lightmapUVRect.max.y ≤ 1) := by
  have hpad : (0 : Int) ≤ (settings.lightmapPadding : Int) := Int.natCast_nonneg _
  unfold AllocateLightmapRegion at hres
  rcases htr : tryExistingLightmaps (size.x + 2 * (settings.lightmapPadding : Int))
      (size.y + 2 * (settings.lightmapPadding : Int)) lightmaps with - | ⟨i, pp, upd⟩
  · rw [htr, if_neg (by omega)] at hres
    rcases hAl : (AreaAllocator.Reset (settings.lightmapSize : Int)
        (settings.lightmapSize : Int)).Allocate
        (size.x + 2 * (settings.lightmapPadding : Int))
        (size.y + 2 * (settings.lightmapPadding : Int)) with - | ⟨pp2, alloc2⟩
    · rw [hAl] at hres
      exact absurd hres (by simp)
    · rw [hAl] at hres
      dsimp only at hres
      obtain ⟨hb1, hb2, hb3, hb4, -, -, -⟩ :=
        Allocate_spec _ _ _ (Reset_WF _ _) pp2 alloc2 hAl
      dsimp only [AreaAllocator.Reset] at hb3 hb4
      by_cases hz : pp2 = (⟨0, 0⟩ : IntVector2)
      · rw [if_pos hz] at hres
        simp only [Option.some.injEq, Prod.mk.injEq] at hres
        rw [← hres.1]
        exact make_uv_bounds _ _ _ _ hL (by dsimp only; omega) (by dsimp only; omega)
          (by dsimp only; omega) (by dsimp only; omega) hx0 hy0
      · rw [if_neg hz] at hres
        exact absurd hres (by simp)
  · rw [htr] at hres
    simp only [Option.some.injEq, Prod.mk.injEq] at hres
    obtain ⟨⟨hbb1, hbb2, hbb3, hbb4⟩, -⟩ :=
      tryExistingLightmaps_some_spec (settings.lightmapSize : Int) _ _ lightmaps hwf i pp upd htr
    rw [← hres.1]
    exact make_uv_bounds _ _ _ _ hL (by dsimp only; omega) (by dsimp only; omega)
      (by dsimp only; omega) (by dsimp only; omega) hx0 hy0

/-- C3 witness: the region allocated for a 4×4 request with padding 1 into an
empty atlas list has its UV rectangle inside the unit square. -/
theorem AllocateLightmapRegion_uv_unit_witness :
    (0 ≤ regionC3w.1.lightmapUVRect.min.x ∧ regionC3w.1.lightmapUVRect.min.x ≤ 1) ∧
    (0 ≤ regionC3w.1.lightmapUVRect.min.y ∧ regionC3w.1.lightmapUVRect.min.y ≤ 1) ∧
    (0 ≤ regionC3w.1.lightmapUVRect.max.x ∧ regionC3w.1.lightmapUVRect.max.x ≤ 1) ∧
    (0 ≤ regionC3w.1.lightmapUVRect.max.y ∧ regionC3w.1.lightmapUVRect.max.y ≤ 1) :=
  AllocateLightmapRegion_uv_unit settingsC3w [] ⟨4, 4⟩ regionC3w.1 regionC3w.2
    (fun d hd => absurd hd (List.not_mem_nil d)) (by decide) (by decide) (by decide)
    (by decide) (by decide) (Option.some_get (by decide)).symm

/-- C3 counterexample: the dedicated atlas allocated for a 32×16 request
against 16-texel atlas settings yields a region whose UV max x-component is
32/16 = 2, outside [0,1]: line 236 divides the dedicated rectangle by the
configured atlas size, not the dedicated atlas width. -/
theorem AllocateLightmapRegion_uv_counterexample :
    ((AllocateLightmapRegion settingsC3ce [] ⟨32, 16⟩).map
      (fun pr => pr.1.lightmapUVRect.max.x)) = some 2 ∧ ¬((2 : ℚ) ≤ 1) := by
  refine ⟨?_, by norm_num⟩
  have h1 : AllocateLightmapRegion settingsC3ce [] ⟨32, 16⟩ =
      some (LightmapRegion.make 0 ⟨0, 0⟩ ⟨32, 16⟩ 16, [⟨⟨32, 16, []⟩⟩]) := by
    rfl
  rw [h1]
  unfold LightmapRegion.make
  dsimp only [Option.map_some]
  norm_num

/-- The atlas-list well-formedness invariant is preserved by every successful
AllocateLightmapRegion call (it holds vacuously for the initial empty list),
justifying the LightmapsWF hypotheses above for every reachable atlas list. -/
theorem AllocateLightmapRegion_preserves_wf (settings : LightmapBakingSettings)
    (lightmaps : List LightmapDesc) (size : IntVector2) (region : LightmapRegion)
    (lightmaps2 : List LightmapDesc)
    (hwf : LightmapsWF (settings.lightmapSize : Int) lightmaps)
    (hres : AllocateLightmapRegion settings lightmaps size = some (region, lightmaps2)) :
    LightmapsWF (settings.lightmapSize : Int) lightmaps2 := by
  unfold AllocateLightmapRegion at hres
  rcases htr : tryExistingLightmaps (size.x + 2 * (settings.lightmapPadding : Int))
      (size.y + 2 * (settings.lightmapPadding : Int)) lightmaps with - | ⟨i, pp, upd⟩
  · rw [htr] at hres
    by_cases hbig : size.x > (settings.lightmapSize : Int) ∨
        size.y > (settings.lightmapSize : Int)
    · rw [if_pos hbig] at hres
      rcases hAl : (AreaAllocator.Reset
          ((size.x + (RayPacketSize : Int) - 1) / (RayPacketSize : Int) * (RayPacketSize : Int))
          size.y).Allocate
          ((size.x + (RayPacketSize : Int) - 1) / (RayPacketSize : Int) * (RayPacketSize : Int))
          size.y with - | ⟨pos2, alloc2⟩
      · rw [hAl] at hres
        exact absurd hres (by simp)
      · rw [hAl] at hres
        dsimp only at hres
        have hg : ¬((size.x + (RayPacketSize : Int) - 1) / (RayPacketSize : Int)
            * (RayPacketSize : Int) ≤ 0 ∨ size.y ≤ 0) := by
          intro hg
          unfold AreaAllocator.Allocate at hAl
          rw [if_pos hg] at hAl
          exact absurd hAl (by simp)
        push_neg at hg
        rw [Reset_Allocate_full _ _ (by omega) (by omega)] at hAl
        simp only [Option.some.injEq, Prod.mk.injEq] at hAl
        obtain ⟨hpos, halloc⟩ := hAl
        rw [if_pos hpos.symm] at hres
        simp only [Option.some.injEq, Prod.mk.injEq] at hres
        rw [← hres.2]
        intro d hd
        rcases List.mem_append.mp hd with hl | hr2
        · exact hwf d hl
        · simp only [List.mem_cons, List.not_mem_nil, or_false] at hr2
          subst hr2
          refine ⟨?_, Or.inr ?_⟩
          · dsimp only
            rw [← halloc]
            intro r hr3
            exact absurd hr3 (List.not_mem_nil r)
          · dsimp only
            rw [← halloc]
    · rw [if_neg hbig] at hres
      rcases hAl : (AreaAllocator.Reset (settings.lightmapSize : Int)
          (settings.lightmapSize : Int)).Allocate
          (size.x + 2 * (settings.lightmapPadding : Int))
          (size.y + 2 * (settings.lightmapPadding : Int)) with - | ⟨pp2, alloc2⟩
      · rw [hAl] at hres
        exact absurd hres (by simp)
      · rw [hAl] at hres
        dsimp only at hres
        obtain ⟨-, -, -, -, hw5, hw6, hw7⟩ := Allocate_spec _ _ _ (Reset_WF _ _) pp2 alloc2 hAl
        dsimp only [AreaAllocator.Reset] at hw5 hw6
        by_cases hz : pp2 = (⟨0, 0⟩ : IntVector2)
        · rw [if_pos hz] at hres
          simp only [Option.some.injEq, Prod.mk.injEq] at hres
          rw [← hres.2]
          intro d hd
          rcases List.mem_append.mp hd with hl | hr2
          · exact hwf d hl
          · simp only [List.mem_cons, List.not_mem_nil, or_false] at hr2
            subst hr2
            exact ⟨hw7, Or.inl ⟨hw5, hw6⟩⟩
        · rw [if_neg hz] at hres
          exact absurd hres (by simp)
  · rw [htr] at hres
    simp only [Option.some.injEq, Prod.mk.injEq] at hres
    obtain ⟨-, hwfu⟩ := tryExistingLightmaps_some_spec (settings.lightmapSize : Int) _ _
      lightmaps hwf i pp upd htr
    rw [← hres.2]
    exact hwfu

/-! ## Claim C7 -/

/-- C7: RenderLightmapGBuffer with an out-of-range atlas index, or with a
failed Graphics::BeginFrame, returns false and leaves the whole baker state —
in particular the four texel attribute buffers and the current lightmap
index — exactly as it was. -/
theorem RenderLightmapGBuffer_failure (impl : LightmapBakerImpl) (index : Nat)
    (beginFrameOk : Bool) (gbuffer : GBufferTextures)
    (h : impl.lightmaps.length ≤ index ∨ beginFrameOk = false) :
    RenderLightmapGBuffer impl index beginFrameOk gbuffer = (false, impl) := by
  unfold RenderLightmapGBuffer
  rcases h with h | h
  · rw [if_pos h]
  · rw [h]
    by_cases h2 : impl.lightmaps.length ≤ index
    · rw [if_pos h2]
    · rw [if_neg h2]
      simp

/-- C7 witness: with no atlases, a render request for index 0 fails and
leaves the state untouched. -/
theorem RenderLightmapGBuffer_failure_witness :
    RenderLightmapGBuffer implC7w 0 true gbufferEmpty = (false, implC7w) :=
  RenderLightmapGBuffer_failure implC7w 0 true gbufferEmpty (Or.inl (by decide))

/-! ## Claim C5 -/

/-- C5 counterexample: after a successful Initialize (with no receivers, so
the atlas array is empty) and before any RenderLightmapGBuffer, the current
lightmap index still holds the sentinel M_MAX_UNSIGNED, which is not within
the bounds of the atlas array; BakeLightmap performs no bounds check and its
descriptor read at line 596 goes out of bounds (modelled none) rather than
being rejected. -/
theorem BakeLightmap_before_render_counterexample :
    (Initialize settingsC5 [] 0).map (fun r =>
      (r.1, r.2.lightmaps.length, r.2.currentLightmapIndex,
        (BakeLightmap r.2 ⟨0, 0, 1⟩ 100 (fun _ _ _ => false)).isSome)) =
      some (true, 0, M_MAX_UNSIGNED, false) := by
  decide

/-- C5 (amended): BakeLightmap performs no rejection or bounds check of its
own; its descriptor read is in bounds exactly after a successful
RenderLightmapGBuffer, whose own index check establishes
currentLightmapIndex < number of atlases — so after any successful render
BakeLightmap returns a result instead of reading out of bounds. -/
theorem RenderLightmapGBuffer_success_BakeLightmap_in_bounds (impl : LightmapBakerImpl)
    (index : Nat) (beginFrameOk : Bool) (gbuffer : GBufferTextures)
    (hsucc : (RenderLightmapGBuffer impl index beginFrameOk gbuffer).1 = true) :
    (RenderLightmapGBuffer impl index beginFrameOk gbuffer).2.currentLightmapIndex = index ∧
    index < (RenderLightmapGBuffer impl index beginFrameOk gbuffer).2.lightmaps.length ∧
    ∀ rayDirection maxRayLength occluded,
      (BakeLightmap (RenderLightmapGBuffer impl index beginFrameOk gbuffer).2
        rayDirection maxRayLength occluded).isSome := by
  unfold RenderLightmapGBuffer at hsucc ⊢
  by_cases h1 : impl.lightmaps.length ≤ index
  · rw [if_pos h1] at hsucc
    exact absurd hsucc (by simp)
  · rw [if_neg h1] at hsucc ⊢
    cases beginFrameOk with
    | false => simp at hsucc
    | true =>
      rw [if_neg (by decide)]
      refine ⟨rfl, by dsimp only; omega, ?_⟩
      intro rayDirection maxRayLength occluded
      unfold BakeLightmap
      dsimp only
      have hlt : index < impl.lightmaps.length := by omega
      rw [List.getElem?_eq_getElem hlt]
      rfl

/-- C5 witness: on a state with one atlas, a successful render of atlas 0
leaves the index in bounds and a subsequent BakeLightmap produces a result. -/
theorem RenderLightmapGBuffer_success_BakeLightmap_in_bounds_witness :
    (RenderLightmapGBuffer implC5w 0 true gbufferEmpty).2.currentLightmapIndex = 0 ∧
    (BakeLightmap (RenderLightmapGBuffer implC5w 0 true gbufferEmpty).2 ⟨0, 0, 1⟩ 100
      (fun _ _ _ => false)).isSome :=
  ⟨(RenderLightmapGBuffer_success_BakeLightmap_in_bounds implC5w 0 true gbufferEmpty
      (by decide)).1,
   (RenderLightmapGBuffer_success_BakeLightmap_in_bounds implC5w 0 true gbufferEmpty
      (by decide)).2.2 ⟨0, 0, 1⟩ 100 (fun _ _ _ => false)⟩

/-! ## Claim C6 -/

/-- C6: Validate accepts the settings exactly when the atlas size is
divisible by both the parallel-chunk count and the ray-packet width; when it
rejects them Initialize returns false with the freshly constructed impl, in
which no atlas exists and no receiver has a StaticModel or an allocated
region. -/
theorem Initialize_validation (settings : LightmapBakingSettings) (nodes : List NodeData)
    (indeterminate : Nat) :
    ((LightmapBakerImpl.make settings nodes indeterminate).Validate = true ↔
      (settings.numParallelChunks ∣ settings.lightmapSize ∧
        RayPacketSize ∣ settings.lightmapSize)) ∧
    ((LightmapBakerImpl.make settings nodes indeterminate).Validate = false →
      Initialize settings nodes indeterminate =
        some (false, LightmapBakerImpl.make settings nodes indeterminate) ∧
      (LightmapBakerImpl.make settings nodes indeterminate).lightmaps = [] ∧
      ∀ r ∈ (LightmapBakerImpl.make settings nodes indeterminate).lightReceivers,
        r.staticModel = none ∧ r.region = LightmapRegion.defaultUninit indeterminate) := by
  constructor
  · unfold LightmapBakerImpl.Validate LightmapBakerImpl.make
    dsimp only
    constructor
    · intro h
      by_cases h1 : settings.lightmapSize % settings.numParallelChunks ≠ 0
      · rw [if_pos h1] at h
        exact absurd h (by simp)
      · rw [if_neg h1] at h
        by_cases h2 : settings.lightmapSize % RayPacketSize ≠ 0
        · rw [if_pos h2] at h
          exact absurd h (by simp)
        · push_neg at h1 h2
          exact ⟨Nat.dvd_of_mod_eq_zero h1, Nat.dvd_of_mod_eq_zero h2⟩
    · rintro ⟨hd1, hd2⟩
      rw [if_neg (by simp [Nat.mod_eq_zero_of_dvd hd1]),
        if_neg (by simp [Nat.mod_eq_zero_of_dvd hd2])]
  · intro hval
    refine ⟨?_, rfl, ?_⟩
    · unfold Initialize
      rw [hval]
      simp
    · intro r hr
      unfold LightmapBakerImpl.make at hr
      dsimp only at hr
      obtain ⟨n, -, rfl⟩ := List.mem_map.mp hr
      exact ⟨rfl, rfl⟩

/-- C6 witness: the invalid settings 17/2-chunk are rejected by Initialize
with nothing allocated. -/
theorem Initialize_validation_witness :
    Initialize settingsC6ce [] 0 = some (false, LightmapBakerImpl.make settingsC6ce [] 0) :=
  ((Initialize_validation settingsC6ce [] 0).2 (by decide)).1

/-! ## Claim C8 -/

/-- C8: the failing input is a single receiver whose node has no StaticModel
component. Region allocation correctly skips it and creates no atlas
(first conjunct), but InitializeLightmapBakingScenes evaluates
lightmaps[receiver.region_.lightmapIndex_] at line 334 before checking
staticModel_: the receiver's region is default-constructed, its index is an
uninitialized (indeterminate) value, and with the atlas array empty the read
is out of bounds for every possible value of that indeterminate index
(modelled none), contradicting the claim that the lookup stays in bounds. -/
theorem InitializeLightmapBakingScenes_reads_out_of_bounds (indeterminate : Nat) :
    AllocateLightmapRegions settingsC8 [receiverWithoutModel indeterminate] [] =
      some ([receiverWithoutModel indeterminate], []) ∧
    InitializeLightmapBakingScenes [] [receiverWithoutModel indeterminate] = none := by
  constructor
  · rfl
  · rfl

/-! ## Claim C9 -/

theorem ApplyLightmapsToScene_getElem?_model (baseLightmapIndex : Nat)
    (receivers : List LightReceiver) (states : List StaticModelLightmapState)
    (i : Nat) (receiver : LightReceiver) (state : StaticModelLightmapState)
    (m : ModelData) (hr : receivers[i]? = some receiver) (hs : states[i]? = some state)
    (hm : receiver.staticModel = some m) :
    (ApplyLightmapsToScene baseLightmapIndex receivers states)[i]? =
      some { lightmap := true
             lightmapIndex := baseLightmapIndex + receiver.region.lightmapIndex
             lightmapScaleOffset := receiver.region.GetScaleOffset } := by
  induction receivers generalizing states i with
  | nil => exact absurd hr (by simp)
  | cons r rs ih =>
    cases states with
    | nil => exact absurd hs (by simp)
    | cons st sts =>
      cases i with
      | zero =>
        simp only [List.getElem?_cons_zero, Option.some.injEq] at hr hs
        subst hr
        subst hs
        simp only [ApplyLightmapsToScene, hm, List.getElem?_cons_zero]
      | succ n =>
        simp only [List.getElem?_cons_succ] at hr hs
        simp only [ApplyLightmapsToScene, List.getElem?_cons_succ]
        exact ih sts n hr hs

theorem ApplyLightmapsToScene_getElem?_skip (baseLightmapIndex : Nat)
    (receivers : List LightReceiver) (states : List StaticModelLightmapState)
    (i : Nat) (receiver : LightReceiver) (state : StaticModelLightmapState)
    (hr : receivers[i]? = some receiver) (hs : states[i]? = some state)
    (hm : receiver.staticModel = none) :
    (ApplyLightmapsToScene baseLightmapIndex receivers states)[i]? = some state := by
  induction receivers generalizing states i with
  | nil => exact absurd hr (by simp)
  | cons r rs ih =>
    cases states with
    | nil => exact absurd hs (by simp)
    | cons st sts =>
      cases i with
      | zero =>
        simp only [List.getElem?_cons_zero, Option.some.injEq] at hr hs
        subst hr
        subst hs
        simp only [ApplyLightmapsToScene, hm, List.getElem?_cons_zero]
      | succ n =>
        simp only [List.getElem?_cons_succ] at hr hs
        simp only [ApplyLightmapsToScene, List.getElem?_cons_succ]
        exact ih sts n hr hs

/-- C9: ApplyLightmapsToScene writes, onto the component of every receiver
that has a StaticModel, the lightmap flag, the index
baseLightmapIndex + region.lightmapIndex_, and the scale/offset
(uvSize.x, uvSize.y, uvMin.x, uvMin.y) of the region's UV rectangle as the
allocator computed it; a receiver without a StaticModel is skipped and its
component state is left exactly as before (lightmap-enabled stays unset). -/
theorem ApplyLightmapsToScene_binds (baseLightmapIndex : Nat)
    (receivers : List LightReceiver) (states : List StaticModelLightmapState)
    (i : Nat) (receiver : LightReceiver) (state : StaticModelLightmapState)
    (hr : receivers[i]? = some receiver) (hs : states[i]? = some state) :
    (∀ m, receiver.staticModel = some m →
      (ApplyLightmapsToScene baseLightmapIndex receivers states)[i]? =
        some { lightmap := true
               lightmapIndex := baseLightmapIndex + receiver.region.lightmapIndex
               lightmapScaleOffset := receiver.region.GetScaleOffset }) ∧
    (receiver.staticModel = none →
      (ApplyLightmapsToScene baseLightmapIndex receivers states)[i]? = some state) ∧
    receiver.region.GetScaleOffset =
      ⟨receiver.region.lightmapUVRect.max.x - receiver.region.lightmapUVRect.min.x,
       receiver.region.lightmapUVRect.max.y - receiver.region.lightmapUVRect.min.y,
       receiver.region.lightmapUVRect.min.x, receiver.region.lightmapUVRect.min.y⟩ := by
  refine ⟨?_, ?_, rfl⟩
  · intro m hm
    exact ApplyLightmapsToScene_getElem?_model baseLightmapIndex receivers states i
      receiver state m hr hs hm
  · intro hm
    exact ApplyLightmapsToScene_getElem?_skip baseLightmapIndex receivers states i
      receiver state hr hs hm

/-- C9 witness: on the one-receiver list with a StaticModel, binding with
base index 5 writes the flag, index 5 + region index, and the region's
scale/offset. -/
theorem ApplyLightmapsToScene_binds_witness :
    (ApplyLightmapsToScene 5 [receiverC9] [stateC9])[0]? =
      some { lightmap := true
             lightmapIndex := 5 + receiverC9.region.lightmapIndex
             lightmapScaleOffset := receiverC9.region.GetScaleOffset } :=
  (ApplyLightmapsToScene_binds 5 [receiverC9] [stateC9] 0 receiverC9 stateC9 rfl rfl).1
    modelC9 rfl

end Urho3D
